import Mathlib

/-!
Shallow embedding of the cart persistence subsystem
(`lib/cart-persistence.ts` of the Toolbox repository).

Modelling conventions:
* Timestamps are integers (milliseconds since the epoch), as produced by
  `Date.now()` / `Date.getTime()` in the source.
* Browser `localStorage` is modelled by the `Store` structure holding the
  three keys used by the source (`toolbox_cart_v2`, `toolbox_cart_metadata_v2`,
  `toolbox_cart_history_v2`) as typed values; JSON (de)serialization of
  well-formed data is the identity, so timestamps "deserialized back to Date
  objects" are modelled as the unchanged integer fields.
* Storage is available (`isStorageAvailable()` returns true): the claims under
  study are about cart logic, not about the degraded no-storage mode, and on
  the unavailable path every operation returns failure without mutating state.
* Nondeterminism of `generateSessionId` (`Date.now()` + `Math.random()`) is
  made explicit: operations that may generate a session id take the random
  suffix `rnd` as a parameter.
* The `Product` interface is imported by the source from `./barcode-scanner`,
  a file not included here. Modelled from the spec: CatalogItem has a stable
  string `id`, display name, brand, type, location, a `balance` and a `status`.
  Since the source guards with `typeof product.balance === 'number'` and
  `(product.status || '')`, `balance` and `status` are `Option`-valued.
-/

structure Product where
  id : String
  name : String
  brand : String
  itemType : String
  location : String
  balance : Option Int
  status : Option String
deriving Repr, DecidableEq

structure CartItem where
  id : String
  product : Product
  quantity : Int
  addedAt : Int
  notes : Option String
deriving Repr, DecidableEq

structure CartState where
  items : List CartItem
  totalItems : Int
  totalValue : Int
  lastUpdated : Int
  sessionId : String
  employeeId : Option String
  location : Option String
deriving Repr, DecidableEq

structure CartMetadata where
  version : String
  createdAt : Int
  lastAccessedAt : Int
deriving Repr, DecidableEq

/-- The three localStorage keys owned by the subsystem, as one record. -/
structure Store where
  cart : Option CartState
  metadata : Option CartMetadata
  history : List CartState
deriving Repr, DecidableEq

def emptyStore : Store := { cart := none, metadata := none, history := [] }

def MAX_CART_HISTORY : Nat := 10

def CART_EXPIRY_DAYS : Int := 30

/-- `cart_${Date.now()}_${Math.random().toString(36).substr(2, 9)}` with the
random suffix passed in explicitly. -/
def generateSessionId (now : Int) (rnd : String) : String :=
  "cart_" ++ toString now ++ "_" ++ rnd

/-- Does the character list start with the given pattern? -/
def charsStartWith : List Char → List Char → Bool
  | _, [] => true
  | [], _ :: _ => false
  | c :: s, d :: p => c == d && charsStartWith s p

/-- Does the character list contain the given pattern as a contiguous run? -/
def charsContain (pat : List Char) : List Char → Bool
  | [] => charsStartWith [] pat
  | c :: t => charsStartWith (c :: t) pat || charsContain pat t

/-- Character-wise lower-casing of a string, as `toLowerCase()` acts on the
ASCII status values of the source. -/
def lowerChars (s : String) : List Char :=
  s.data.map Char.toLower

/-- `status.toString().toLowerCase().includes('out')` from the source. -/
def statusContainsOut (s : String) : Bool :=
  charsContain "out".data (lowerChars s)

structure AvailabilityResult where
  available : Bool
  reason : Option String
  maxAvailable : Option Int
deriving Repr, DecidableEq

/-- `isProductAvailable` from the source: status check first, then the
balance checks, accepting in every remaining case. -/
def isProductAvailable (product : Option Product) (requestedQty : Int) :
    AvailabilityResult :=
  match product with
  | none => { available := false, reason := some "Product not found", maxAvailable := none }
  | some p =>
    if statusContainsOut (p.status.getD "") then
      { available := false, reason := some "Item is out of stock", maxAvailable := some 0 }
    else
      match p.balance with
      | some b =>
        if b ≤ 0 then
          { available := false, reason := some "Item has no available balance",
            maxAvailable := some 0 }
        else if requestedQty > b then
          { available := false, reason := some ("Only " ++ toString b ++ " available"),
            maxAvailable := some b }
        else
          { available := true, reason := none, maxAvailable := none }
      | none => { available := true, reason := none, maxAvailable := none }

/-- `calculateTotalValue` from the source: the fold over items adding
`0 * quantity` (pricing not implemented yet). -/
def calculateTotalValue (items : List CartItem) : Int :=
  items.foldl (fun total item => total + 0 * item.quantity) 0

/-- The `reduce((sum, item) => sum + item.quantity, 0)` used by
`saveCartState` to recompute `totalItems`. -/
def sumQuantities (items : List CartItem) : Int :=
  items.foldl (fun sum item => sum + item.quantity) 0

/-- `clearCartState`: removes the cart and metadata keys (history retained). -/
def clearCartState (st : Store) : Bool × Store :=
  (true, { st with cart := none, metadata := none })

/-- `(Date.now() - lastUpdated.getTime()) / (1000 * 60 * 60 * 24)` as exact
rational arithmetic. -/
def daysSinceUpdate (now lastUpdated : Int) : ℚ :=
  ((now - lastUpdated : Int) : ℚ) / (1000 * 60 * 60 * 24)

/-- The expiry test `daysSinceUpdate > CART_EXPIRY_DAYS` of `loadCartState`,
phrased over the millisecond difference itself: dividing by the positive
constant `1000*60*60*24` and comparing with 30 is the same as comparing the
difference with 30 days of milliseconds (`isExpired_iff` below proves the
equivalence with the division form). -/
def isExpired (now lastUpdated : Int) : Bool :=
  decide (now - lastUpdated > CART_EXPIRY_DAYS * (1000 * 60 * 60 * 24))

/-- `loadCartMetadata` (deserialization is the identity in the model). -/
def loadCartMetadata (st : Store) : Option CartMetadata :=
  st.metadata

/-- `loadCartState`: absent key gives null; an expired cart is cleared
(cart and metadata keys deleted) and null returned; otherwise the state is
returned with timestamps deserialized and `metadata.lastAccessedAt`
refreshed.  The second component is the store after these side effects. -/
def loadCartState (now : Int) (st : Store) : Option CartState × Store :=
  match st.cart with
  | none => (none, st)
  | some cartState =>
    if isExpired now cartState.lastUpdated then
      (none, (clearCartState st).2)
    else
      let st' :=
        match st.metadata with
        | some m => { st with metadata := some { m with lastAccessedAt := now } }
        | none => st
      (some cartState, st')

/-- The recomputation block of `saveCartState`: totals from items, fresh
`lastUpdated`. -/
def recomputeTotals (now : Int) (c : CartState) : CartState :=
  { c with
    totalItems := sumQuantities c.items
    totalValue := calculateTotalValue c.items
    lastUpdated := now }

/-- The spread merge `{ ...defaults, sessionId, ...currentState, ...cartState }`
of `saveCartState`.  Every in-repo call passes a complete `CartState`, so all
required fields of `given` win; the optional `employeeId`/`location` keys fall
back to the currently loaded state when absent from `given`, exactly as an
absent key behaves under object spread. -/
def mergeSave (current : Option CartState) (given : CartState) : CartState :=
  { given with
    employeeId := given.employeeId.orElse fun _ => current.bind CartState.employeeId
    location := given.location.orElse fun _ => current.bind CartState.location }

/-- The history snapshot tag
`history_${cartState.sessionId}_${Date.now()}` of `saveCartToHistory`. -/
def historyTag (now : Int) (c : CartState) : CartState :=
  { c with sessionId := "history_" ++ c.sessionId ++ "_" ++ toString now }

/-- `saveCartToHistory`: prepend the tagged snapshot and keep the first
`MAX_CART_HISTORY` entries. -/
def saveCartToHistory (now : Int) (st : Store) (cartState : CartState) : Store :=
  { st with history := (historyTag now cartState :: st.history).take MAX_CART_HISTORY }

/-- `saveCartState`: load (with its side effects), pick the session id
(`currentState?.sessionId || generateSessionId()`), merge, recompute totals,
write cart and metadata, snapshot into history.  Storage being available in
the model, the result flag is always true. -/
def saveCartState (now : Int) (rnd : String) (st : Store) (cartState : CartState) :
    Bool × Store :=
  let p := loadCartState now st
  let current := p.1
  let st1 := p.2
  let sessionIdVar :=
    match current with
    | some c => if c.sessionId = "" then generateSessionId now rnd else c.sessionId
    | none => generateSessionId now rnd
  let updatedState := recomputeTotals now (mergeSave current cartState)
  let createdAtVal :=
    match current with
    | some c =>
      if c.sessionId = sessionIdVar then
        ((loadCartMetadata st1).map CartMetadata.createdAt).getD now
      else now
    | none => now
  let metadata : CartMetadata :=
    { version := "2.0", createdAt := createdAtVal, lastAccessedAt := now }
  let st2 : Store := { st1 with cart := some updatedState, metadata := some metadata }
  (true, saveCartToHistory now st2 updatedState)

/-- `items.findIndex(item => item.id === product.id)` followed by the lookup:
the first cart line with the given id. -/
def findCartItem (id : String) (items : List CartItem) : Option CartItem :=
  items.find? fun item => item.id == id

/-- In-place mutation of the found line (`existingItem.quantity = …`):
replace the first line with the given id by its image under `f`. -/
def updateFirstMatching (id : String) (f : CartItem → CartItem) :
    List CartItem → List CartItem
  | [] => []
  | item :: rest =>
    if item.id == id then f item :: rest else item :: updateFirstMatching id f rest

/-- The default object `addToCart` builds when no cart is stored yet. -/
def defaultCartState (now : Int) (rnd : String) : CartState :=
  { items := [], totalItems := 0, totalValue := 0, lastUpdated := now,
    sessionId := generateSessionId now rnd, employeeId := none, location := none }

structure AddResult where
  success : Bool
  error : Option String
deriving Repr, DecidableEq

/-- The common tail of `addToCart` (`const saved = saveCartState(...)`). -/
def addSave (now : Int) (rnd : String) (st1 : Store) (c : CartState) :
    AddResult × Store :=
  let saved := saveCartState now rnd st1 c
  ({ success := saved.1, error := if saved.1 then none else some "Failed to save cart" },
   saved.2)

/-- The part of `addToCart` after the oracle has accepted and the current
cart state has been resolved (the loaded state, or the fresh default): update
the existing line — clamping to `balance - existing.quantity` when the new
total would exceed a numeric balance, failing outright when that clamp is
≤ 0 — or append a fresh line, and save. -/
def addToCartBody (now : Int) (rnd : String) (st1 : Store) (currentState : CartState)
    (product : Product) (quantity : Int) (notes : Option String) : AddResult × Store :=
  match findCartItem product.id currentState.items with
  | some existingItem =>
    let newQuantity := existingItem.quantity + quantity
    match product.balance with
    | some b =>
      if newQuantity > b then
        let canAdd := max 0 (b - existingItem.quantity)
        if canAdd ≤ 0 then
          ({ success := false,
             error := some ("Cannot add more - already have maximum (" ++ toString b
               ++ ") in cart") }, st1)
        else
          let newItems := updateFirstMatching product.id
            (fun it =>
              { it with
                quantity := it.quantity + canAdd
                notes := if notes.isSome then notes else it.notes })
            currentState.items
          let saved := saveCartState now rnd st1 { currentState with items := newItems }
          ({ success := true,
             error := some ("Only " ++ toString canAdd ++ " added (reached max balance of "
               ++ toString b ++ ")") }, saved.2)
      else
        addSave now rnd st1
          { currentState with
            items := updateFirstMatching product.id
              (fun it =>
                { it with
                  quantity := newQuantity
                  notes := if notes.isSome then notes else it.notes })
              currentState.items }
    | none =>
      addSave now rnd st1
        { currentState with
          items := updateFirstMatching product.id
            (fun it =>
              { it with
                quantity := newQuantity
                notes := if notes.isSome then notes else it.notes })
            currentState.items }
  | none =>
    let cartItem : CartItem :=
      { id := product.id, product := product, quantity := quantity,
        addedAt := now, notes := notes }
    addSave now rnd st1 { currentState with items := currentState.items ++ [cartItem] }

/-- `addToCart`: oracle first (rejection mutates nothing), then the body on
the loaded (or freshly created) cart state. -/
def addToCart (now : Int) (rnd : String) (st : Store) (product : Product)
    (quantity : Int) (notes : Option String) : AddResult × Store :=
  let check := isProductAvailable (some product) quantity
  if check.available then
    let p := loadCartState now st
    addToCartBody now rnd p.2 (p.1.getD (defaultCartState now rnd)) product quantity notes
  else
    ({ success := false, error := check.reason }, st)

/-- `removeFromCart`: load, filter out the id, save; false when no cart. -/
def removeFromCart (now : Int) (rnd : String) (st : Store) (productId : String) :
    Bool × Store :=
  let p := loadCartState now st
  match p.1 with
  | none => (false, p.2)
  | some currentState =>
    saveCartState now rnd p.2
      { currentState with items := currentState.items.filter fun item => item.id != productId }

/-- `updateCartItemQuantity`: load, find the line; delegate to
`removeFromCart` when the new quantity is ≤ 0, otherwise overwrite the
quantity verbatim and save; false when no cart or no matching line. -/
def updateCartItemQuantity (now : Int) (rnd : String) (st : Store)
    (productId : String) (quantity : Int) : Bool × Store :=
  let p := loadCartState now st
  match p.1 with
  | none => (false, p.2)
  | some currentState =>
    match findCartItem productId currentState.items with
    | some _ =>
      if quantity ≤ 0 then removeFromCart now rnd p.2 productId
      else
        saveCartState now rnd p.2
          { currentState with
            items := updateFirstMatching productId
              (fun it => { it with quantity := quantity }) currentState.items }
    | none => (false, p.2)

/-- `getCartHistory` (deserialization is the identity in the model). -/
def getCartHistory (st : Store) : List CartState :=
  st.history

/-- The bundle serialized by `exportCartData`. -/
structure ExportBundle where
  current : Option CartState
  metadata : Option CartMetadata
  history : List CartState
  exportedAt : Int
  version : String
deriving Repr, DecidableEq

/-- `exportCartData`: reads the current state (with load side effects),
metadata and history into the backup bundle. -/
def exportCartData (now : Int) (st : Store) : ExportBundle × Store :=
  let p := loadCartState now st
  ({ current := p.1, metadata := loadCartMetadata p.2, history := getCartHistory p.2,
     exportedAt := now, version := "2.0" }, p.2)

/-- `importCartData`: restores only the `current` portion through
`saveCartState`; false when the bundle has no current state. -/
def importCartData (now : Int) (rnd : String) (st : Store) (data : ExportBundle) :
    Bool × Store :=
  match data.current with
  | some c => saveCartState now rnd st c
  | none => (false, st)

/-- One public mutation of the reconciliation engine. -/
inductive CartOp where
  | add (product : Product) (quantity : Int) (notes : Option String)
  | update (productId : String) (quantity : Int)
  | remove (productId : String)

/-- Apply one mutation, keeping only the store (results are per-call). -/
def applyOp (now : Int) (rnd : String) (st : Store) : CartOp → Store
  | .add p q n => (addToCart now rnd st p q n).2
  | .update id q => (updateCartItemQuantity now rnd st id q).2
  | .remove id => (removeFromCart now rnd st id).2

/-- Run a sequence of timestamped mutations. -/
def runOps (st : Store) : List (Int × String × CartOp) → Store
  | [] => st
  | (now, rnd, op) :: rest => runOps (applyOp now rnd st op) rest

/-- Run a sequence of timestamped `saveCartState` calls. -/
def runSaves (st : Store) : List (Int × String × CartState) → Store
  | [] => st
  | (now, rnd, cs) :: rest => runSaves (saveCartState now rnd st cs).2 rest

/-- The uniqueness-and-derived-totals invariant of CartState. -/
def CartTotalsInv (st : Store) : Prop :=
  ∀ c, st.cart = some c →
    (c.items.map CartItem.id).Nodup ∧ c.totalItems = sumQuantities c.items

/-- Every stored line has quantity at least 1. -/
def QPosInv (st : Store) : Prop :=
  ∀ c, st.cart = some c → ∀ it ∈ c.items, 1 ≤ it.quantity

/-- Does the mutation request a positive quantity when it is an add? -/
def opAddPos : CartOp → Prop
  | .add _ q _ => 1 ≤ q
  | .update _ _ => True
  | .remove _ => True

/-- The cart state a `saveCartState` call writes: merge of the argument over
the loaded state, with totals recomputed.  (It does not depend on the random
suffix: a complete `CartState` argument always supplies the session id.) -/
def savedCart (now : Int) (st : Store) (cs : CartState) : CartState :=
  recomputeTotals now (mergeSave (loadCartState now st).1 cs)

def prodA : Product :=
  { id := "A", name := "A", brand := "", itemType := "", location := "",
    balance := some 5, status := some "in-stock" }

def outProd : Product :=
  { id := "B", name := "B", brand := "", itemType := "", location := "",
    balance := some 7, status := some "Out-of-Stock" }

/-- A stored cart with `lastUpdated` at the epoch, used as a concrete state. -/
def cW : CartState :=
  { items := [], totalItems := 0, totalValue := 0, lastUpdated := 0,
    sessionId := "s", employeeId := none, location := none }

def mW : CartMetadata := { version := "2.0", createdAt := 0, lastAccessedAt := 0 }

def stW : Store := { cart := some cW, metadata := some mW, history := [] }

/-- The cart line produced by Scenario 1 (`addItem(A, 3)` from the empty store
at time 0 with random suffix "r"). -/
def itemA3 : CartItem :=
  { id := "A", product := prodA, quantity := 3, addedAt := 0, notes := none }

/-- The cart state produced by Scenario 1. -/
def cA3 : CartState :=
  { items := [itemA3], totalItems := 3, totalValue := 0, lastUpdated := 0,
    sessionId := "cart_0_r", employeeId := none, location := none }

/-- The store produced by Scenario 1. -/
def stScenario1 : Store := (addToCart 0 "r" emptyStore prodA 3 none).2

/-- The line of Scenario 1 after a further `addItem(A, 2)` at time 1. -/
def itemA5 : CartItem :=
  { id := "A", product := prodA, quantity := 5, addedAt := 0, notes := none }

/-- The cart state of Scenario 1 after a further `addItem(A, 2)` at time 1. -/
def cA5 : CartState :=
  { items := [itemA5], totalItems := 5, totalValue := 0, lastUpdated := 1,
    sessionId := "cart_0_r", employeeId := none, location := none }

/-- A small concrete mutation sequence for exercising the invariants. -/
def opsW : List (Int × String × CartOp) :=
  [(0, "r", .add prodA 3 none), (1, "r", .update "A" 2), (2, "r", .remove "A")]

/-- C2: `isProductAvailable` returns false without `maxAvailable` on an absent
product; false with `maxAvailable = 0` when the status contains "out"
(checked first) or when the numeric balance is ≤ 0; false with
`maxAvailable = balance` and a reason citing the limit when the request
exceeds the numeric balance; and true in every other case.  The function is
pure by construction: it takes no store and returns only its result record,
so the store contents are untouched by any call. -/
theorem isProductAvailable_spec (p : Product) (q : Int) :
    isProductAvailable none q =
      { available := false, reason := some "Product not found", maxAvailable := none } ∧
    (statusContainsOut (p.status.getD "") = true →
      isProductAvailable (some p) q =
        { available := false, reason := some "Item is out of stock", maxAvailable := some 0 }) ∧
    (statusContainsOut (p.status.getD "") = false → ∀ b, p.balance = some b →
      (b ≤ 0 →
        isProductAvailable (some p) q =
          { available := false, reason := some "Item has no available balance",
            maxAvailable := some 0 }) ∧
      (0 < b → b < q →
        isProductAvailable (some p) q =
          { available := false, reason := some ("Only " ++ toString b ++ " available"),
            maxAvailable := some b }) ∧
      (0 < b → q ≤ b → (isProductAvailable (some p) q).available = true)) ∧
    (statusContainsOut (p.status.getD "") = false → p.balance = none →
      (isProductAvailable (some p) q).available = true) := by
  refine ⟨rfl, ?_, ?_, ?_⟩
  · intro h
    simp [isProductAvailable, h]
  · intro h b hb
    refine ⟨?_, ?_, ?_⟩
    · intro hle
      simp [isProductAvailable, h, hb, hle]
    · intro hpos hlt
      simp [isProductAvailable, h, hb, show ¬b ≤ 0 by omega, show q > b by omega]
    · intro hpos hle
      simp [isProductAvailable, h, hb, show ¬b ≤ 0 by omega, show ¬q > b by omega]
  · intro h hb
    simp [isProductAvailable, h, hb]

/-- Witness for C2 at a concrete product whose status contains "out". -/
theorem isProductAvailable_spec_witness :
    isProductAvailable (some outProd) 1 =
      { available := false, reason := some "Item is out of stock", maxAvailable := some 0 } :=
  (isProductAvailable_spec outProd 1).2.1 (by decide)

theorem optOrElseSelf (o : Option α) : (o.orElse fun _ => o) = o := by
  cases o <;> rfl

theorem optOrElseNone (o : Option α) : (o.orElse fun _ => none) = o := by
  cases o <;> rfl

theorem load_none {now : Int} {st : Store} (h : st.cart = none) :
    loadCartState now st = (none, st) := by
  simp [loadCartState, h]

theorem load_expired {now : Int} {st : Store} {c : CartState} (h : st.cart = some c)
    (he : isExpired now c.lastUpdated = true) :
    loadCartState now st = (none, { st with cart := none, metadata := none }) := by
  simp [loadCartState, h, he, clearCartState]

theorem load_live {now : Int} {st : Store} {c : CartState} (h : st.cart = some c)
    (he : isExpired now c.lastUpdated = false) :
    (loadCartState now st).1 = some c ∧ (loadCartState now st).2.cart = some c := by
  cases hm : st.metadata <;> simp [loadCartState, h, he, hm]

theorem load_fst_some {now : Int} {st : Store} {c : CartState}
    (h : (loadCartState now st).1 = some c) :
    st.cart = some c ∧ isExpired now c.lastUpdated = false := by
  cases hc : st.cart with
  | none => rw [load_none hc] at h; exact absurd h (by simp)
  | some c0 =>
    cases he : isExpired now c0.lastUpdated with
    | true => rw [load_expired hc he] at h; exact absurd h (by simp)
    | false =>
      rw [(load_live hc he).1] at h
      injection h with h2
      subst h2
      exact ⟨rfl, he⟩

theorem load_history (now : Int) (st : Store) :
    (loadCartState now st).2.history = st.history := by
  cases hc : st.cart with
  | none => rw [load_none hc]
  | some c0 =>
    cases he : isExpired now c0.lastUpdated with
    | true => rw [load_expired hc he]
    | false => cases hm : st.metadata <;> simp [loadCartState, hc, he, hm]

theorem load_snd_cart (now : Int) (st : Store) :
    (loadCartState now st).2.cart = st.cart ∨
      ((loadCartState now st).1 = none ∧ (loadCartState now st).2.cart = none) := by
  cases hc : st.cart with
  | none => exact .inl (by rw [load_none hc]; exact hc)
  | some c0 =>
    cases he : isExpired now c0.lastUpdated with
    | true => rw [load_expired hc he]; exact .inr ⟨rfl, rfl⟩
    | false => exact .inl (load_live hc he).2

theorem load_again {now : Int} {st : Store} :
    (loadCartState now (loadCartState now st).2).1 = (loadCartState now st).1 := by
  cases hc : st.cart with
  | none => simp [load_none hc]
  | some c0 =>
    cases he : isExpired now c0.lastUpdated with
    | true =>
      rw [load_expired hc he]
      have h2 : ({ st with cart := none, metadata := none } : Store).cart = none := rfl
      show (loadCartState now { st with cart := none, metadata := none }).1 =
        (none : Option CartState)
      rw [load_none h2]
    | false =>
      have h2 : (loadCartState now st).2.cart = some c0 := (load_live hc he).2
      rw [(load_live hc he).1, (load_live h2 he).1]

theorem save_fst (now : Int) (rnd : String) (st : Store) (cs : CartState) :
    (saveCartState now rnd st cs).1 = true := rfl

theorem save_cart (now : Int) (rnd : String) (st : Store) (cs : CartState) :
    (saveCartState now rnd st cs).2.cart = some (savedCart now st cs) := rfl

theorem save_metadata_isSome (now : Int) (rnd : String) (st : Store) (cs : CartState) :
    ((saveCartState now rnd st cs).2.metadata).isSome = true := rfl

theorem save_history (now : Int) (rnd : String) (st : Store) (cs : CartState) :
    (saveCartState now rnd st cs).2.history =
      (historyTag now (savedCart now st cs) :: st.history).take MAX_CART_HISTORY := by
  have h1 : (saveCartState now rnd st cs).2.history =
      (historyTag now (savedCart now st cs) ::
        (loadCartState now st).2.history).take MAX_CART_HISTORY := rfl
  rw [h1, load_history]

theorem savedCart_items (now : Int) (st : Store) (cs : CartState) :
    (savedCart now st cs).items = cs.items := rfl

theorem savedCart_totalItems (now : Int) (st : Store) (cs : CartState) :
    (savedCart now st cs).totalItems = sumQuantities cs.items := rfl

theorem savedCart_lastUpdated (now : Int) (st : Store) (cs : CartState) :
    (savedCart now st cs).lastUpdated = now := rfl

theorem savedCart_sessionId (now : Int) (st : Store) (cs : CartState) :
    (savedCart now st cs).sessionId = cs.sessionId := rfl

theorem isExpired_now_now (now : Int) : isExpired now now = false := by
  simp [isExpired, daysSinceUpdate, CART_EXPIRY_DAYS]

theorem findCartItem_nil (id : String) : findCartItem id [] = none := rfl

theorem findCartItem_some {id : String} {items : List CartItem} {it : CartItem}
    (h : findCartItem id items = some it) : it ∈ items ∧ it.id = id := by
  refine ⟨List.mem_of_find?_eq_some h, ?_⟩
  have := List.find?_some h
  simpa using this

theorem findCartItem_none {id : String} {items : List CartItem}
    (h : findCartItem id items = none) : ∀ it ∈ items, it.id ≠ id := by
  intro it hmem heq
  have := List.find?_eq_none.mp h it hmem
  simp [heq] at this

theorem updateFirstMatching_map_id (id : String) (f : CartItem → CartItem)
    (hf : ∀ it, (f it).id = it.id) (l : List CartItem) :
    (updateFirstMatching id f l).map CartItem.id = l.map CartItem.id := by
  induction l with
  | nil => rfl
  | cons a t ih =>
    by_cases h : a.id = id
    · simp [updateFirstMatching, h, hf]
    · simp [updateFirstMatching, h, ih]

theorem updateFirstMatching_mem {id : String} {f : CartItem → CartItem}
    {l : List CartItem} {it' : CartItem} (h : it' ∈ updateFirstMatching id f l) :
    it' ∈ l ∨ ∃ it ∈ l, it.id = id ∧ it' = f it := by
  induction l with
  | nil => simp [updateFirstMatching] at h
  | cons a t ih =>
    by_cases ha : a.id = id
    · simp only [updateFirstMatching, ha, beq_self_eq_true, if_true] at h
      rcases List.mem_cons.mp h with h1 | h1
      · exact .inr ⟨a, List.mem_cons_self a t, ha, h1⟩
      · exact .inl (List.mem_cons_of_mem a h1)
    · simp only [updateFirstMatching, beq_iff_eq, ha, if_false] at h
      rcases List.mem_cons.mp h with h1 | h1
      · exact .inl (h1 ▸ List.mem_cons_self a t)
      · rcases ih h1 with h2 | ⟨it, hit, hid, heq⟩
        · exact .inl (List.mem_cons_of_mem a h2)
        · exact .inr ⟨it, List.mem_cons_of_mem a hit, hid, heq⟩

theorem findCartItem_updateFirstMatching (id : String) (f : CartItem → CartItem)
    (hf : ∀ it, (f it).id = it.id) (l : List CartItem) :
    findCartItem id (updateFirstMatching id f l) = (findCartItem id l).map f := by
  induction l with
  | nil => rfl
  | cons a t ih =>
    by_cases ha : a.id = id
    · simp [updateFirstMatching, findCartItem, List.find?_cons, ha, hf]
    · simp only [updateFirstMatching, beq_iff_eq, ha, if_false]
      simp only [findCartItem, List.find?_cons] at ih ⊢
      simp only [show (a.id == id) = false by simp [ha]]
      exact ih

theorem updateFirstMatching_nodup_match {id : String} {f : CartItem → CartItem}
    {l : List CartItem} {it' : CartItem}
    (hnd : (l.map CartItem.id).Nodup)
    (hmem : it' ∈ updateFirstMatching id f l) (hid : it'.id = id) :
    ∃ it, findCartItem id l = some it ∧ it' = f it := by
  induction l with
  | nil => simp [updateFirstMatching] at hmem
  | cons a t ih =>
    by_cases ha : a.id = id
    · simp only [updateFirstMatching, ha, beq_self_eq_true, if_true] at hmem
      rcases List.mem_cons.mp hmem with h1 | h1
      · exact ⟨a, by simp [findCartItem, List.find?_cons, ha], h1⟩
      · exfalso
        have : it'.id ∈ t.map CartItem.id := List.mem_map_of_mem CartItem.id h1
        rw [hid, ← ha] at this
        exact (List.nodup_cons.mp (by simpa using hnd)).1 this
    · simp only [updateFirstMatching, beq_iff_eq, ha, if_false] at hmem
      rcases List.mem_cons.mp hmem with h1 | h1
      · exact absurd (h1 ▸ hid) ha
      · rcases ih (List.nodup_cons.mp (by simpa using hnd)).2 h1 with ⟨it, hfind, heq⟩
        refine ⟨it, ?_, heq⟩
        simp [findCartItem, List.find?_cons, show (a.id == id) = false by simp [ha]]
        simpa [findCartItem] using hfind

theorem filter_ne_idem (pid : String) (l : List CartItem) :
    (l.filter fun it => it.id != pid).filter (fun it => it.id != pid) =
      l.filter fun it => it.id != pid := by
  induction l with
  | nil => rfl
  | cons a t ih =>
    by_cases h : a.id = pid
    · simp [List.filter_cons, h, ih]
    · simp [List.filter_cons, h, ih]

theorem filter_ne_of_not_mem {pid : String} {l : List CartItem}
    (h : ∀ it ∈ l, it.id ≠ pid) : (l.filter fun it => it.id != pid) = l := by
  induction l with
  | nil => rfl
  | cons a t ih =>
    have ha := h a (List.mem_cons_self a t)
    simp [List.filter_cons, ha, ih fun it hit => h it (List.mem_cons_of_mem a hit)]

theorem isExpired_iff {now lu : Int} : isExpired now lu = true ↔ 30 < daysSinceUpdate now lu := by
  rw [daysSinceUpdate, lt_div_iff₀ (by norm_num : (0:ℚ) < 1000 * 60 * 60 * 24)]
  simp [isExpired, CART_EXPIRY_DAYS]
  constructor
  · intro h
    exact_mod_cast h
  · intro h
    exact_mod_cast h

theorem isExpired_eq_false_iff {now lu : Int} :
    isExpired now lu = false ↔ daysSinceUpdate now lu ≤ 30 := by
  rw [← Bool.not_eq_true, isExpired_iff, not_lt]

/-- C7: TTL expiry happens on read.  With a stored cart: loading when more
than 30 days have elapsed since `lastUpdated` deletes both the cart and the
metadata keys and returns null; loading within 30 days returns the stored
state (timestamps deserialized, i.e. unchanged in the model); and no
`saveCartState` call ever leaves the cart key deleted — after every save the
cart key holds a state, so expiry is never performed by saving. -/
theorem loadCart_ttl (now : Int) (rnd : String) (st : Store) (c cs : CartState)
    (h : st.cart = some c) :
    (30 < daysSinceUpdate now c.lastUpdated →
      loadCartState now st = (none, { st with cart := none, metadata := none })) ∧
    (daysSinceUpdate now c.lastUpdated ≤ 30 → (loadCartState now st).1 = some c) ∧
    ((saveCartState now rnd st cs).2.cart).isSome = true := by
  refine ⟨?_, ?_, rfl⟩
  · intro hgt
    exact load_expired h (isExpired_iff.mpr hgt)
  · intro hle
    exact (load_live h (isExpired_eq_false_iff.mpr hle)).1

/-- Witness for C7: a cart last updated at the epoch is expired (with its
keys cleared) when loaded 31 days later, and is returned intact when loaded
exactly 30 days later. -/
theorem loadCart_ttl_witness :
    loadCartState 2678400000 stW = (none, { stW with cart := none, metadata := none }) ∧
    (loadCartState 2592000000 stW).1 = some cW :=
  ⟨(loadCart_ttl 2678400000 "r" stW cW cW rfl).1 (by norm_num [daysSinceUpdate, cW]),
   (loadCart_ttl 2592000000 "r" stW cW cW rfl).2.1 (by norm_num [daysSinceUpdate, cW])⟩

theorem historyTag_sessionId_ne (now : Int) (c : CartState) :
    (historyTag now c).sessionId ≠ c.sessionId := by
  intro h
  have h8 : ("history_" : String).length = 8 := by decide
  have h1 : ("_" : String).length = 1 := by decide
  have hl := congrArg String.length h
  simp only [historyTag, String.length_append, h8, h1] at hl
  omega

theorem runSaves_history_length (saves : List (Int × String × CartState)) :
    ∀ st : Store, saves ≠ [] →
      (runSaves st saves).history.length =
        min MAX_CART_HISTORY (st.history.length + saves.length) := by
  induction saves with
  | nil => intro st h; exact absurd rfl h
  | cons x rest ih =>
    intro st _
    obtain ⟨now, rnd, cs⟩ := x
    have hlen : ((saveCartState now rnd st cs).2).history.length =
        min MAX_CART_HISTORY (st.history.length + 1) := by
      rw [save_history]
      simp [List.length_take]
    by_cases hr : rest = []
    · subst hr
      show ((saveCartState now rnd st cs).2).history.length = _
      rw [hlen]
      simp
    · rw [show runSaves st ((now, rnd, cs) :: rest) =
          runSaves (saveCartState now rnd st cs).2 rest from rfl]
      rw [ih _ hr, hlen]
      simp only [MAX_CART_HISTORY, List.length_cons]
      omega

theorem runSaves_append (a b : List (Int × String × CartState)) (st : Store) :
    runSaves st (a ++ b) = runSaves (runSaves st a) b := by
  induction a generalizing st with
  | nil => rfl
  | cons x rest ih =>
    obtain ⟨n, r, c⟩ := x
    rw [List.cons_append]
    exact ih (saveCartState n r st c).2

/-- C8: every save prepends to the history a copy of the state just saved
whose session id gets the `history_` tag — a string never equal to the live
session id — and truncates the list to 10 entries; after 15 sequential saves
`getCartHistory` returns exactly 10 entries, and the entry from the most
recent save is first. -/
theorem cart_history_bound :
    (∀ (now : Int) (rnd : String) (st : Store) (cs : CartState),
      (saveCartState now rnd st cs).2.history =
        (historyTag now (savedCart now st cs) :: st.history).take MAX_CART_HISTORY ∧
      (historyTag now (savedCart now st cs)).sessionId ≠ (savedCart now st cs).sessionId) ∧
    (∀ (st : Store) (saves : List (Int × String × CartState)),
      saves.length = 15 → (getCartHistory (runSaves st saves)).length = 10) ∧
    (∀ (st : Store) (pre : List (Int × String × CartState)) (now : Int) (rnd : String)
        (cs : CartState),
      (getCartHistory (runSaves st (pre ++ [(now, rnd, cs)]))).head? =
        some (historyTag now (savedCart now (runSaves st pre) cs))) := by
  refine ⟨fun now rnd st cs => ⟨save_history now rnd st cs, historyTag_sessionId_ne now _⟩,
    ?_, ?_⟩
  · intro st saves hlen
    have hne : saves ≠ [] := by
      intro h
      rw [h] at hlen
      simp at hlen
    show (runSaves st saves).history.length = 10
    rw [runSaves_history_length saves st hne, hlen]
    simp only [MAX_CART_HISTORY]
    omega
  · intro st pre now rnd cs
    rw [show getCartHistory (runSaves st (pre ++ [(now, rnd, cs)])) =
      (runSaves st (pre ++ [(now, rnd, cs)])).history from rfl]
    rw [runSaves_append]
    rw [show runSaves (runSaves st pre) [(now, rnd, cs)] =
      (saveCartState now rnd (runSaves st pre) cs).2 from rfl]
    rw [save_history]
    rw [show MAX_CART_HISTORY = 10 from rfl]
    rw [List.take_succ_cons]
    rfl

/-- Witness for C8: fifteen saves of a concrete state from the empty store
leave exactly ten history entries. -/
theorem cart_history_bound_witness :
    (getCartHistory (runSaves emptyStore (List.replicate 15 ((0 : Int), "r", cW)))).length = 10 :=
  cart_history_bound.2.1 emptyStore _ (by simp)

theorem mergeSave_none (g : CartState) : mergeSave none g = g := by
  simp [mergeSave, optOrElseNone]

theorem mergeSave_same_opts {c : CartState} {xs : List CartItem} :
    mergeSave (some c) { c with items := xs } = { c with items := xs } := by
  simp [mergeSave, optOrElseSelf]

theorem mergeSave_self {c : CartState} : mergeSave (some c) c = c := by
  simp [mergeSave, optOrElseSelf]

theorem savedCart_of_loaded {now : Int} {st : Store} {c : CartState} {xs : List CartItem}
    (h : (loadCartState now st).1 = some c) :
    savedCart now st { c with items := xs } =
      recomputeTotals now { c with items := xs } := by
  rw [savedCart, h, mergeSave_same_opts]

theorem savedCart_of_none {now : Int} {st : Store} {cs : CartState}
    (h : (loadCartState now st).1 = none) :
    savedCart now st cs = recomputeTotals now cs := by
  rw [savedCart, h, mergeSave_none]

theorem recomputeTotals_idem (now : Int) (c : CartState) :
    recomputeTotals now (recomputeTotals now c) = recomputeTotals now c := rfl

theorem recomputeTotals_items (now : Int) (c : CartState) :
    (recomputeTotals now c).items = c.items := rfl

theorem load_after_save (now : Int) (rnd : String) (st : Store) (cs : CartState) :
    (loadCartState now (saveCartState now rnd st cs).2).1 = some (savedCart now st cs) :=
  (load_live (save_cart now rnd st cs)
    (by rw [savedCart_lastUpdated]; exact isExpired_now_now now)).1

theorem removeFromCart_eq_nonload (now : Int) (rnd : String) (st : Store) (pid : String)
    (h : (loadCartState now st).1 = none) :
    removeFromCart now rnd st pid = (false, (loadCartState now st).2) := by
  simp [removeFromCart, h]

theorem removeFromCart_eq_save (now : Int) (rnd : String) (st : Store) (pid : String)
    {c : CartState} (h : (loadCartState now st).1 = some c) :
    removeFromCart now rnd st pid =
      saveCartState now rnd (loadCartState now st).2
        { c with items := c.items.filter fun item => item.id != pid } := by
  simp [removeFromCart, h]

theorem removeFromCart_of_loaded (now : Int) (rnd : String) (st : Store) (pid : String)
    {c : CartState} (h : (loadCartState now st).1 = some c) :
    (removeFromCart now rnd st pid).1 = true ∧
    (removeFromCart now rnd st pid).2.cart =
      some (recomputeTotals now { c with items := c.items.filter fun it => it.id != pid }) := by
  rw [removeFromCart_eq_save now rnd st pid h]
  refine ⟨save_fst _ _ _ _, ?_⟩
  rw [save_cart, savedCart_of_loaded (by rw [load_again, h])]

/-- C6: `removeFromCart` is idempotent — at any store, calling it twice in a
row (at the same instant) returns the same result and leaves the same stored
cart as calling it once — and removing an id with no matching line from a
loadable cart is a no-op on the lines that still reports success. -/
theorem removeFromCart_idempotent (now : Int) (rnd : String) (st : Store)
    (productId : String) :
    ((removeFromCart now rnd (removeFromCart now rnd st productId).2 productId).1 =
      (removeFromCart now rnd st productId).1) ∧
    ((removeFromCart now rnd (removeFromCart now rnd st productId).2 productId).2.cart =
      (removeFromCart now rnd st productId).2.cart) ∧
    (∀ c, (loadCartState now st).1 = some c → findCartItem productId c.items = none →
      (removeFromCart now rnd st productId).1 = true ∧
      ∃ c', (removeFromCart now rnd st productId).2.cart = some c' ∧ c'.items = c.items) := by
  cases hload : (loadCartState now st).1 with
  | none =>
    have hc2 : (loadCartState now st).2.cart = none := by
      rcases load_snd_cart now st with h | h
      · cases hc : st.cart with
        | none => rw [h, hc]
        | some c0 =>
          cases he : isExpired now c0.lastUpdated with
          | true => rw [load_expired hc he]
          | false => rw [(load_live hc he).1] at hload; exact absurd hload (by simp)
      · exact h.2
    have e1 := removeFromCart_eq_nonload now rnd st productId hload
    have hload2 : (loadCartState now (removeFromCart now rnd st productId).2).1 = none := by
      rw [e1, load_none hc2]
    have e2 := removeFromCart_eq_nonload now rnd (removeFromCart now rnd st productId).2
      productId hload2
    refine ⟨?_, ?_, ?_⟩
    · rw [e2, e1]
    · rw [e2, e1]
      show (loadCartState now (loadCartState now st).2).2.cart = (loadCartState now st).2.cart
      rw [load_none hc2]
    · intro c hc
      simp at hc
  | some c =>
    have step1 := removeFromCart_of_loaded now rnd st productId hload
    have hload2 : (loadCartState now (removeFromCart now rnd st productId).2).1 =
        some (recomputeTotals now
          { c with items := c.items.filter fun it => it.id != productId }) := by
      rw [removeFromCart_eq_save now rnd st productId hload, load_after_save,
        savedCart_of_loaded (by rw [load_again, hload])]
    have step2 := removeFromCart_of_loaded now rnd (removeFromCart now rnd st productId).2
      productId hload2
    have hitems : (recomputeTotals now
          { c with items := c.items.filter fun it => it.id != productId }).items.filter
          (fun it => it.id != productId) =
        (recomputeTotals now
          { c with items := c.items.filter fun it => it.id != productId }).items := by
      show (c.items.filter fun it => it.id != productId).filter (fun it => it.id != productId) =
        c.items.filter fun it => it.id != productId
      exact filter_ne_idem productId c.items
    refine ⟨?_, ?_, ?_⟩
    · rw [step1.1, step2.1]
    · rw [step1.2, step2.2, hitems]
      rfl
    · intro c0 hc0 hfind
      injection hc0 with hc0
      subst hc0
      have hsame : c.items.filter (fun item => item.id != productId) = c.items :=
        filter_ne_of_not_mem (findCartItem_none hfind)
      refine ⟨step1.1, _, step1.2, ?_⟩
      rw [recomputeTotals_items]
      show c.items.filter (fun it => it.id != productId) = c.items
      exact hsame

/-- Witness for C6: removing the absent id "B" from the Scenario 1 store
succeeds and leaves the line list unchanged. -/
theorem removeFromCart_idempotent_witness :
    (removeFromCart 0 "r" stScenario1 "B").1 = true ∧
    ∃ c', (removeFromCart 0 "r" stScenario1 "B").2.cart = some c' ∧ c'.items = cA3.items :=
  (removeFromCart_idempotent 0 "r" stScenario1 "B").2.2 cA3 (by decide) (by decide)

theorem load_snd_idem {now : Int} {st : Store} {c : CartState}
    (h : (loadCartState now st).1 = some c) :
    loadCartState now (loadCartState now st).2 = (some c, (loadCartState now st).2) := by
  obtain ⟨hc, he⟩ := load_fst_some h
  cases hm : st.metadata with
  | none => simp [loadCartState, hc, he, hm]
  | some m => simp [loadCartState, hc, he, hm]

theorem update_eq_nonload (now : Int) (rnd : String) (st : Store) (pid : String)
    (q : Int) (h : (loadCartState now st).1 = none) :
    updateCartItemQuantity now rnd st pid q = (false, (loadCartState now st).2) := by
  simp [updateCartItemQuantity, h]

theorem update_eq_nofind (now : Int) (rnd : String) (st : Store) (pid : String)
    (q : Int) {c : CartState} (h : (loadCartState now st).1 = some c)
    (hf : findCartItem pid c.items = none) :
    updateCartItemQuantity now rnd st pid q = (false, (loadCartState now st).2) := by
  simp [updateCartItemQuantity, h, hf]

theorem update_eq_remove (now : Int) (rnd : String) (st : Store) (pid : String)
    (q : Int) {c : CartState} {it : CartItem} (h : (loadCartState now st).1 = some c)
    (hf : findCartItem pid c.items = some it) (hq : q ≤ 0) :
    updateCartItemQuantity now rnd st pid q =
      removeFromCart now rnd (loadCartState now st).2 pid := by
  simp [updateCartItemQuantity, h, hf, hq]

theorem update_eq_save (now : Int) (rnd : String) (st : Store) (pid : String)
    (q : Int) {c : CartState} {it : CartItem} (h : (loadCartState now st).1 = some c)
    (hf : findCartItem pid c.items = some it) (hq : ¬q ≤ 0) :
    updateCartItemQuantity now rnd st pid q =
      saveCartState now rnd (loadCartState now st).2
        { c with items := updateFirstMatching pid (fun i => { i with quantity := q }) c.items } := by
  simp [updateCartItemQuantity, h, hf, hq]

theorem removeFromCart_after_load {now : Int} {rnd : String} {st : Store} {c : CartState}
    (h : (loadCartState now st).1 = some c) (pid : String) :
    removeFromCart now rnd (loadCartState now st).2 pid = removeFromCart now rnd st pid := by
  have h2 : (loadCartState now (loadCartState now st).2).1 = some c := by
    rw [load_again, h]
  have h3 : (loadCartState now (loadCartState now st).2).2 = (loadCartState now st).2 := by
    rw [load_snd_idem h]
  rw [removeFromCart_eq_save now rnd st pid h,
    removeFromCart_eq_save now rnd (loadCartState now st).2 pid h2, h3]

/-- C5 counterexample: with a stored, unexpired cart whose line list is empty,
`updateCartItemQuantity("A", 5)` returns failure even though a cart exists —
the source returns false whenever no line matches the id — and
`updateCartItemQuantity("A", 0)` also returns failure while `removeFromCart("A")`
succeeds, so the ≤ 0 case is not an unconditional delegation to removal. -/
theorem updateCartItemQuantity_claim_false :
    (stW.cart).isSome = true ∧
    (updateCartItemQuantity 0 "r" stW "A" 5).1 = false ∧
    (updateCartItemQuantity 0 "r" stW "A" 0).1 = false ∧
    (removeFromCart 0 "r" stW "A").1 = true := by decide

/-- C5 amended: `updateCartItemQuantity(id, quantity)` returns failure (with
load side effects only) when no cart loads or when the cart has no line with
that id; when a line with the id exists, a call with quantity ≤ 0 behaves
exactly as `removeFromCart(id)`, and a call with quantity > 0 overwrites the
line's quantity verbatim — no re-validation against the item's balance — and
returns success. -/
theorem updateCartItemQuantity_spec (now : Int) (rnd : String) (st : Store)
    (productId : String) (quantity : Int) :
    ((loadCartState now st).1 = none →
      updateCartItemQuantity now rnd st productId quantity =
        (false, (loadCartState now st).2)) ∧
    (∀ c, (loadCartState now st).1 = some c → findCartItem productId c.items = none →
      updateCartItemQuantity now rnd st productId quantity =
        (false, (loadCartState now st).2)) ∧
    (∀ c it, (loadCartState now st).1 = some c →
      findCartItem productId c.items = some it → quantity ≤ 0 →
      updateCartItemQuantity now rnd st productId quantity =
        removeFromCart now rnd st productId) ∧
    (∀ c it, (loadCartState now st).1 = some c →
      findCartItem productId c.items = some it → 0 < quantity →
      (updateCartItemQuantity now rnd st productId quantity).1 = true ∧
      ∃ c', (updateCartItemQuantity now rnd st productId quantity).2.cart = some c' ∧
        findCartItem productId c'.items = some { it with quantity := quantity }) := by
  refine ⟨?_, ?_, ?_, ?_⟩
  · exact update_eq_nonload now rnd st productId quantity
  · exact fun c h hf => update_eq_nofind now rnd st productId quantity h hf
  · intro c it h hf hq
    rw [update_eq_remove now rnd st productId quantity h hf hq,
      removeFromCart_after_load h productId]
  · intro c it h hf hq
    rw [update_eq_save now rnd st productId quantity h hf (by omega)]
    refine ⟨save_fst _ _ _ _, ?_⟩
    rw [save_cart, savedCart_of_loaded (by rw [load_again, h])]
    refine ⟨_, rfl, ?_⟩
    rw [recomputeTotals_items]
    show findCartItem productId
      (updateFirstMatching productId (fun i => { i with quantity := quantity }) c.items) = _
    rw [findCartItem_updateFirstMatching productId
      (fun i => { i with quantity := quantity }) (fun i => rfl) c.items, hf]
    rfl

/-- Witness for C5: on the Scenario 1 store, overwriting line A's quantity to
7 — above the item's balance of 5 — succeeds verbatim. -/
theorem updateCartItemQuantity_spec_witness :
    (updateCartItemQuantity 0 "r" stScenario1 "A" 7).1 = true ∧
    ∃ c', (updateCartItemQuantity 0 "r" stScenario1 "A" 7).2.cart = some c' ∧
      findCartItem "A" c'.items = some { itemA3 with quantity := 7 } :=
  (updateCartItemQuantity_spec 0 "r" stScenario1 "A" 7).2.2.2 cA3 itemA3
    (by decide) (by decide) (by decide)

theorem addSave_fst (now : Int) (rnd : String) (st : Store) (c : CartState) :
    (addSave now rnd st c).1 = { success := true, error := none } := rfl

theorem addSave_snd (now : Int) (rnd : String) (st : Store) (c : CartState) :
    (addSave now rnd st c).2 = (saveCartState now rnd st c).2 := rfl

theorem add_eq_reject (now : Int) (rnd : String) (st : Store) (product : Product)
    (quantity : Int) (notes : Option String)
    (h : (isProductAvailable (some product) quantity).available = false) :
    addToCart now rnd st product quantity notes =
      ({ success := false, error := (isProductAvailable (some product) quantity).reason },
       st) := by
  simp [addToCart, h]

theorem add_eq_body (now : Int) (rnd : String) (st : Store) (product : Product)
    (quantity : Int) (notes : Option String)
    (h : (isProductAvailable (some product) quantity).available = true) :
    addToCart now rnd st product quantity notes =
      addToCartBody now rnd (loadCartState now st).2
        ((loadCartState now st).1.getD (defaultCartState now rnd)) product quantity notes := by
  simp [addToCart, h]

theorem oracle_accept {p : Product} {q b : Int} (hb : p.balance = some b)
    (h : (isProductAvailable (some p) q).available = true) :
    statusContainsOut (p.status.getD "") = false ∧ 0 < b ∧ q ≤ b := by
  cases hs : statusContainsOut (p.status.getD "") with
  | true => simp [isProductAvailable, hs] at h
  | false =>
    by_cases h1 : b ≤ 0
    · simp [isProductAvailable, hs, hb, h1] at h
    · by_cases h2 : q > b
      · simp [isProductAvailable, hs, hb, h1, h2] at h
      · exact ⟨rfl, by omega, by omega⟩

theorem body_new (now : Int) (rnd : String) (st1 : Store) (cur : CartState)
    (product : Product) (quantity : Int) (notes : Option String)
    (hfind : findCartItem product.id cur.items = none) :
    addToCartBody now rnd st1 cur product quantity notes =
      addSave now rnd st1
        { cur with
          items := cur.items ++ [{ id := product.id, product := product, quantity := quantity, addedAt := now, notes := notes }] } := by
  simp [addToCartBody, hfind]

theorem body_exist_fits (now : Int) (rnd : String) (st1 : Store) (cur : CartState)
    (product : Product) (quantity : Int) (notes : Option String) {line : CartItem} {b : Int}
    (hfind : findCartItem product.id cur.items = some line)
    (hb : product.balance = some b)
    (hfit : ¬line.quantity + quantity > b) :
    addToCartBody now rnd st1 cur product quantity notes =
      addSave now rnd st1
        { cur with
          items := updateFirstMatching product.id
            (fun it =>
              { it with
                quantity := line.quantity + quantity
                notes := if notes.isSome then notes else it.notes })
            cur.items } := by
  simp [addToCartBody, hfind, hb, hfit]

theorem body_exist_nobal (now : Int) (rnd : String) (st1 : Store) (cur : CartState)
    (product : Product) (quantity : Int) (notes : Option String) {line : CartItem}
    (hfind : findCartItem product.id cur.items = some line)
    (hb : product.balance = none) :
    addToCartBody now rnd st1 cur product quantity notes =
      addSave now rnd st1
        { cur with
          items := updateFirstMatching product.id
            (fun it =>
              { it with
                quantity := line.quantity + quantity
                notes := if notes.isSome then notes else it.notes })
            cur.items } := by
  simp [addToCartBody, hfind, hb]

theorem body_clamp_fail (now : Int) (rnd : String) (st1 : Store) (cur : CartState)
    (product : Product) (quantity : Int) (notes : Option String) {line : CartItem} {b : Int}
    (hfind : findCartItem product.id cur.items = some line)
    (hb : product.balance = some b)
    (hover : line.quantity + quantity > b)
    (hcan : b - line.quantity ≤ 0) :
    addToCartBody now rnd st1 cur product quantity notes =
      ({ success := false,
         error := some ("Cannot add more - already have maximum (" ++ toString b
           ++ ") in cart") }, st1) := by
  have hm : max 0 (b - line.quantity) = 0 := max_eq_left hcan
  simp [addToCartBody, hfind, hb, hover, hm]

theorem body_clamp_ok (now : Int) (rnd : String) (st1 : Store) (cur : CartState)
    (product : Product) (quantity : Int) (notes : Option String) {line : CartItem} {b : Int}
    (hfind : findCartItem product.id cur.items = some line)
    (hb : product.balance = some b)
    (hover : line.quantity + quantity > b)
    (hcan : 0 < b - line.quantity) :
    addToCartBody now rnd st1 cur product quantity notes =
      ({ success := true,
         error := some ("Only " ++ toString (b - line.quantity)
           ++ " added (reached max balance of " ++ toString b ++ ")") },
       (saveCartState now rnd st1
         { cur with
           items := updateFirstMatching product.id
             (fun it =>
               { it with
                 quantity := it.quantity + (b - line.quantity)
                 notes := if notes.isSome then notes else it.notes })
             cur.items }).2) := by
  have hm : max 0 (b - line.quantity) = b - line.quantity := max_eq_right (by omega)
  simp [addToCartBody, hfind, hb, hover, hm, show ¬(b - line.quantity ≤ 0) by omega]

/-- C3: when the oracle accepts a quantity `q` for an item with numeric
balance `b` but the cart already holds `q0` of it and `q0 + q` exceeds `b`:
if `b - q0 > 0` the engine stores exactly `b` (adding only `b - q0`) and
returns success with the "Only N added (reached max balance of b)" warning;
if `b - q0 ≤ 0` it returns outright failure and performs no save. -/
theorem addToCart_partial_fulfillment (now : Int) (rnd : String) (st : Store)
    (product : Product) (q : Int) (notes : Option String) (c : CartState)
    (line : CartItem) (b : Int)
    (hload : (loadCartState now st).1 = some c)
    (hfind : findCartItem product.id c.items = some line)
    (hb : product.balance = some b)
    (hst : statusContainsOut (product.status.getD "") = false)
    (hbpos : 0 < b) (hqle : q ≤ b)
    (hover : b < line.quantity + q) :
    (0 < b - line.quantity →
      (addToCart now rnd st product q notes).1 =
        { success := true,
          error := some ("Only " ++ toString (b - line.quantity)
            ++ " added (reached max balance of " ++ toString b ++ ")") } ∧
      ∃ c', (addToCart now rnd st product q notes).2.cart = some c' ∧
        findCartItem product.id c'.items =
          some { line with quantity := b, notes := if notes.isSome then notes else line.notes }) ∧
    (b - line.quantity ≤ 0 →
      (addToCart now rnd st product q notes).1.success = false ∧
      (addToCart now rnd st product q notes).2 = (loadCartState now st).2) := by
  have havail : (isProductAvailable (some product) q).available = true := by
    simp [isProductAvailable, hst, hb, show ¬b ≤ 0 by omega, show ¬q > b by omega]
  have he := add_eq_body now rnd st product q notes havail
  rw [hload] at he
  simp only [Option.getD_some] at he
  constructor
  · intro hpos
    have hfst : (addToCart now rnd st product q notes).1 =
        { success := true,
          error := some ("Only " ++ toString (b - line.quantity)
            ++ " added (reached max balance of " ++ toString b ++ ")") } := by
      rw [he, body_clamp_ok now rnd (loadCartState now st).2 c product q notes hfind hb
        (by omega) hpos]
    have hsnd : (addToCart now rnd st product q notes).2 =
        (saveCartState now rnd (loadCartState now st).2
          { c with
            items := updateFirstMatching product.id
              (fun it =>
                { it with
                  quantity := it.quantity + (b - line.quantity)
                  notes := if notes.isSome then notes else it.notes })
              c.items }).2 := by
      rw [he, body_clamp_ok now rnd (loadCartState now st).2 c product q notes hfind hb
        (by omega) hpos]
    refine ⟨hfst, ?_⟩
    rw [hsnd, save_cart, savedCart_of_loaded (by rw [load_again, hload])]
    refine ⟨_, rfl, ?_⟩
    show findCartItem product.id (updateFirstMatching product.id
      (fun it =>
        { it with
          quantity := it.quantity + (b - line.quantity)
          notes := if notes.isSome then notes else it.notes })
      c.items) = _
    rw [findCartItem_updateFirstMatching product.id
      (fun it =>
        { it with
          quantity := it.quantity + (b - line.quantity)
          notes := if notes.isSome then notes else it.notes })
      (fun it => rfl) c.items, hfind]
    have harith : line.quantity + (b - line.quantity) = b := by omega
    simp only [Option.map_some']
    rw [harith]
  · intro hle
    rw [he, body_clamp_fail now rnd (loadCartState now st).2 c product q notes hfind hb
      (by omega) hle]
    exact ⟨rfl, rfl⟩

/-- Witness for C3 (Scenario 2): after `addItem(A, 3)` from the empty store,
`addItem(A, 4)` succeeds with the partial-fulfillment warning and line A is
clamped to quantity 5, not 7. -/
theorem addToCart_partial_fulfillment_witness :
    (addToCart 1 "r" stScenario1 prodA 4 none).1 =
      { success := true, error := some "Only 2 added (reached max balance of 5)" } ∧
    ∃ c', (addToCart 1 "r" stScenario1 prodA 4 none).2.cart = some c' ∧
      findCartItem "A" c'.items = some { itemA3 with quantity := 5 } :=
  (addToCart_partial_fulfillment 1 "r" stScenario1 prodA 4 none cA3 itemA3 5
    (by decide) (by decide) rfl (by decide) (by decide) (by decide) (by decide)).1 (by decide)

theorem findCartItem_nodup_mem {pid : String} {l : List CartItem} {it : CartItem}
    (hnd : (l.map CartItem.id).Nodup) (hmem : it ∈ l) (hid : it.id = pid) :
    findCartItem pid l = some it := by
  induction l with
  | nil => simp at hmem
  | cons a t ih =>
    rcases List.mem_cons.mp hmem with h1 | h1
    · subst h1
      simp [findCartItem, List.find?_cons, hid]
    · have hnd' : (∀ x ∈ t, ¬x.id = a.id) ∧ (List.map CartItem.id t).Nodup := by
        simpa using hnd
      have hane : a.id ≠ pid := by
        intro hc
        exact hnd'.1 it h1 (hid.trans hc.symm)
      simp only [findCartItem, List.find?_cons, show (a.id == pid) = false by simp [hane]]
      exact ih hnd'.2 h1

/-- C1: with a numeric balance `b` and a cart whose line ids are unique (as
every cart reachable through the public operations is), a successful
`addToCart` never leaves a line for the product's id with quantity above `b`:
a full add stays within `b` because the oracle admitted the total, and an
overflowing add is clamped to exactly `b` or rejected. -/
theorem addToCart_no_oversell (now : Int) (rnd : String) (st : Store) (product : Product)
    (quantity : Int) (notes : Option String) (b : Int)
    (hb : product.balance = some b)
    (hnd : ∀ c, (loadCartState now st).1 = some c → (c.items.map CartItem.id).Nodup) :
    (addToCart now rnd st product quantity notes).1.success = true →
    ∀ c', (addToCart now rnd st product quantity notes).2.cart = some c' →
    ∀ it ∈ c'.items, it.id = product.id → it.quantity ≤ b := by
  intro hsucc c' hc' it hmem hid
  by_cases havail : (isProductAvailable (some product) quantity).available = true
  case neg =>
    have hof : (isProductAvailable (some product) quantity).available = false := by
      cases h0 : (isProductAvailable (some product) quantity).available
      · rfl
      · exact absurd h0 havail
    rw [add_eq_reject now rnd st product quantity notes hof] at hsucc
    simp at hsucc
  case pos =>
    obtain ⟨hst, hbpos, hqle⟩ := oracle_accept hb havail
    have he := add_eq_body now rnd st product quantity notes havail
    cases hload : (loadCartState now st).1 with
    | none =>
      rw [hload] at he
      simp only [Option.getD_none] at he
      rw [body_new now rnd (loadCartState now st).2 (defaultCartState now rnd) product
        quantity notes (findCartItem_nil product.id)] at he
      rw [he, addSave_snd, save_cart,
        savedCart_of_none (by rw [load_again, hload])] at hc'
      injection hc' with hc'
      subst hc'
      have hm2 : it ∈ ([] : List CartItem) ++
          [{ id := product.id, product := product, quantity := quantity,
             addedAt := now, notes := notes }] := hmem
      simp at hm2
      rw [hm2]
      exact hqle
    | some c =>
      rw [hload] at he
      simp only [Option.getD_some] at he
      have hnodup := hnd c hload
      cases hfind : findCartItem product.id c.items with
      | none =>
        rw [body_new now rnd (loadCartState now st).2 c product quantity notes hfind] at he
        rw [he, addSave_snd, save_cart,
          savedCart_of_loaded (by rw [load_again, hload])] at hc'
        injection hc' with hc'
        subst hc'
        have hm2 : it ∈ c.items ++
            [{ id := product.id, product := product, quantity := quantity,
               addedAt := now, notes := notes }] := hmem
        rcases List.mem_append.mp hm2 with h1 | h1
        · exact absurd hid (findCartItem_none hfind it h1)
        · simp at h1
          rw [h1]
          exact hqle
      | some line =>
        by_cases hover : line.quantity + quantity > b
        · by_cases hcan : b - line.quantity ≤ 0
          · rw [he, body_clamp_fail now rnd (loadCartState now st).2 c product quantity
              notes hfind hb hover hcan] at hsucc
            simp at hsucc
          · rw [he, body_clamp_ok now rnd (loadCartState now st).2 c product quantity
              notes hfind hb hover (by omega)] at hc'
            have hc2 : (saveCartState now rnd (loadCartState now st).2
                { c with
                  items := updateFirstMatching product.id
                    (fun i =>
                      { i with
                        quantity := i.quantity + (b - line.quantity)
                        notes := if notes.isSome then notes else i.notes })
                    c.items }).2.cart = some c' := hc'
            rw [save_cart, savedCart_of_loaded (by rw [load_again, hload])] at hc2
            injection hc2 with hc2
            subst hc2
            have hm2 : it ∈ updateFirstMatching product.id
                (fun i =>
                  { i with
                    quantity := i.quantity + (b - line.quantity)
                    notes := if notes.isSome then notes else i.notes })
                c.items := hmem
            obtain ⟨it0, hfind0, heq⟩ := updateFirstMatching_nodup_match hnodup hm2 hid
            rw [hfind] at hfind0
            injection hfind0 with h00
            subst h00
            rw [heq]
            show line.quantity + (b - line.quantity) ≤ b
            omega
        · rw [he, body_exist_fits now rnd (loadCartState now st).2 c product quantity
            notes hfind hb hover] at hc'
          rw [addSave_snd, save_cart,
            savedCart_of_loaded (by rw [load_again, hload])] at hc'
          injection hc' with hc'
          subst hc'
          have hm2 : it ∈ updateFirstMatching product.id
              (fun i =>
                { i with
                  quantity := line.quantity + quantity
                  notes := if notes.isSome then notes else i.notes })
              c.items := hmem
          obtain ⟨it0, hfind0, heq⟩ := updateFirstMatching_nodup_match hnodup hm2 hid
          rw [heq]
          show line.quantity + quantity ≤ b
          omega

/-- Witness for C1: after Scenario 1, adding 2 more of item A (total 5 =
balance) succeeds and the resulting line quantity is within the balance. -/
theorem addToCart_no_oversell_witness : itemA5.quantity ≤ 5 :=
  addToCart_no_oversell 1 "r" stScenario1 prodA 2 none 5 rfl
    (by
      intro c h
      have h0 : (loadCartState 1 stScenario1).1 = some cA3 := by decide
      rw [h0] at h
      injection h with h
      subst h
      decide)
    (by decide) cA5 (by decide) itemA5 (by decide) (by decide)

/-- C9 counterexample: a stored state that is expired at export time (31 days
old) breaks the round trip — `exportCartData` clears it and captures
`current: null`, so `importCartData` of the exported bundle on an empty store
returns failure instead of succeeding. -/
theorem export_import_roundtrip_false :
    (stW.cart).isSome = true ∧
    (importCartData 2678400000 "r" emptyStore (exportCartData 2678400000 stW).1).1 =
      false := by
  decide

/-- C9 amended: for every stored state that is not expired at export time
(at most 30 days old), `exportCartData` captures it as `current` and
`importCartData` of the bundle on an empty store succeeds, reproducing an
active CartState with exactly the stored lines (same ids and quantities;
only the timestamps and derived totals are restamped by the save path). -/
theorem export_import_roundtrip (now now2 : Int) (rnd : String) (st : Store)
    (c : CartState) (h : st.cart = some c)
    (hfresh : daysSinceUpdate now c.lastUpdated ≤ 30) :
    (exportCartData now st).1.current = some c ∧
    (importCartData now2 rnd emptyStore (exportCartData now st).1).1 = true ∧
    ∃ c', (importCartData now2 rnd emptyStore (exportCartData now st).1).2.cart = some c' ∧
      c'.items = c.items := by
  have hload : (loadCartState now st).1 = some c :=
    (load_live h (isExpired_eq_false_iff.mpr hfresh)).1
  have hcur : (exportCartData now st).1.current = some c := hload
  refine ⟨hcur, ?_, ?_⟩
  · simp only [importCartData, hcur]
    exact save_fst now2 rnd emptyStore c
  · simp only [importCartData, hcur]
    rw [save_cart, savedCart, show (loadCartState now2 emptyStore).1 = none from rfl,
      mergeSave_none]
    exact ⟨_, rfl, rfl⟩

/-- Witness for C9: exporting the Scenario 1 store at time 1 and importing it
at time 5 on an empty store succeeds and reproduces the line list of A. -/
theorem export_import_roundtrip_witness :
    (exportCartData 1 stScenario1).1.current = some cA3 ∧
    (importCartData 5 "s" emptyStore (exportCartData 1 stScenario1).1).1 = true ∧
    ∃ c', (importCartData 5 "s" emptyStore (exportCartData 1 stScenario1).1).2.cart =
      some c' ∧ c'.items = cA3.items :=
  export_import_roundtrip 1 5 "s" stScenario1 cA3 (by decide)
    (by norm_num [daysSinceUpdate, cA3])

theorem nodup_append_one {l : List CartItem} {x : CartItem}
    (hnd : (l.map CartItem.id).Nodup) (hx : ∀ y ∈ l, y.id ≠ x.id) :
    ((l ++ [x]).map CartItem.id).Nodup := by
  rw [List.map_append]
  refine List.Nodup.append hnd (List.nodup_singleton _) ?_
  intro a ha hb
  simp at hb
  rcases List.mem_map.mp ha with ⟨y, hy, hya⟩
  exact hx y hy (by rw [hya, hb])

theorem nodup_filter_ne {l : List CartItem} (pid : String)
    (hnd : (l.map CartItem.id).Nodup) :
    (((l.filter fun it => it.id != pid).map CartItem.id)).Nodup :=
  List.Nodup.sublist (List.Sublist.map CartItem.id (List.filter_sublist l)) hnd

theorem nodup_update_generic {pid : String} {l : List CartItem}
    (f : CartItem → CartItem) (hf : ∀ it, (f it).id = it.id)
    (hnd : (l.map CartItem.id).Nodup) :
    ((updateFirstMatching pid f l).map CartItem.id).Nodup := by
  rw [updateFirstMatching_map_id pid f hf l]
  exact hnd

theorem inv_load {now : Int} {st : Store} (h : CartTotalsInv st) :
    CartTotalsInv (loadCartState now st).2 := by
  intro c hc
  rcases load_snd_cart now st with h1 | h1
  · exact h c (by rw [← h1]; exact hc)
  · rw [h1.2] at hc
    cases hc

theorem inv_save {now : Int} {rnd : String} {st : Store} {cs : CartState}
    (hnd : (cs.items.map CartItem.id).Nodup) :
    CartTotalsInv (saveCartState now rnd st cs).2 := by
  intro c hc
  rw [save_cart] at hc
  injection hc with hc
  subst hc
  exact ⟨hnd, rfl⟩

theorem inv_add {now : Int} {rnd : String} {st : Store} {p : Product} {q : Int}
    {n : Option String} (h : CartTotalsInv st) :
    CartTotalsInv (addToCart now rnd st p q n).2 := by
  by_cases havail : (isProductAvailable (some p) q).available = true
  case neg =>
    have hof : (isProductAvailable (some p) q).available = false := by
      cases h0 : (isProductAvailable (some p) q).available
      · rfl
      · exact absurd h0 havail
    rw [add_eq_reject now rnd st p q n hof]
    exact h
  case pos =>
    have he := add_eq_body now rnd st p q n havail
    cases hload : (loadCartState now st).1 with
    | none =>
      rw [hload] at he
      simp only [Option.getD_none] at he
      rw [body_new now rnd (loadCartState now st).2 (defaultCartState now rnd) p q n
        (findCartItem_nil p.id)] at he
      rw [he, addSave_snd]
      exact inv_save (by simp [defaultCartState])
    | some c =>
      rw [hload] at he
      simp only [Option.getD_some] at he
      obtain ⟨hnodup, _⟩ := h c (load_fst_some hload).1
      cases hfind : findCartItem p.id c.items with
      | none =>
        rw [body_new now rnd (loadCartState now st).2 c p q n hfind] at he
        rw [he, addSave_snd]
        exact inv_save (nodup_append_one hnodup (findCartItem_none hfind))
      | some line =>
        cases hb : p.balance with
        | none =>
          rw [body_exist_nobal now rnd (loadCartState now st).2 c p q n hfind hb] at he
          rw [he, addSave_snd]
          refine inv_save (nodup_update_generic _ ?_ hnodup)
          intro it
          rfl
        | some b =>
          by_cases hover : line.quantity + q > b
          · by_cases hcan : b - line.quantity ≤ 0
            · rw [he, body_clamp_fail now rnd (loadCartState now st).2 c p q n hfind hb
                hover hcan]
              exact inv_load h
            · rw [he, body_clamp_ok now rnd (loadCartState now st).2 c p q n hfind hb
                hover (by omega)]
              show CartTotalsInv (saveCartState now rnd (loadCartState now st).2 _).2
              refine inv_save (nodup_update_generic _ ?_ hnodup)
              intro it
              rfl
          · rw [he, body_exist_fits now rnd (loadCartState now st).2 c p q n hfind hb
              hover, addSave_snd]
            refine inv_save (nodup_update_generic _ ?_ hnodup)
            intro it
            rfl

theorem inv_remove {now : Int} {rnd : String} {st : Store} {pid : String}
    (h : CartTotalsInv st) : CartTotalsInv (removeFromCart now rnd st pid).2 := by
  cases hload : (loadCartState now st).1 with
  | none =>
    rw [removeFromCart_eq_nonload now rnd st pid hload]
    exact inv_load h
  | some c =>
    rw [removeFromCart_eq_save now rnd st pid hload]
    obtain ⟨hnodup, _⟩ := h c (load_fst_some hload).1
    exact inv_save (nodup_filter_ne pid hnodup)

theorem inv_update {now : Int} {rnd : String} {st : Store} {pid : String} {q : Int}
    (h : CartTotalsInv st) : CartTotalsInv (updateCartItemQuantity now rnd st pid q).2 := by
  cases hload : (loadCartState now st).1 with
  | none =>
    rw [update_eq_nonload now rnd st pid q hload]
    exact inv_load h
  | some c =>
    cases hfind : findCartItem pid c.items with
    | none =>
      rw [update_eq_nofind now rnd st pid q hload hfind]
      exact inv_load h
    | some it =>
      by_cases hq : q ≤ 0
      · rw [update_eq_remove now rnd st pid q hload hfind hq,
          removeFromCart_after_load hload pid]
        exact inv_remove h
      · rw [update_eq_save now rnd st pid q hload hfind hq]
        obtain ⟨hnodup, _⟩ := h c (load_fst_some hload).1
        refine inv_save (nodup_update_generic _ ?_ hnodup)
        intro i
        rfl

/-- C4: starting from the absent cart, any sequence of
addItem/updateQuantity/removeItem calls leaves a store whose cart (when one
exists) has at most one line per item id and whose `totalItems` equals the
sum of the line quantities — totals are recomputed from the items by every
save, never carried independently. -/
theorem cart_unique_ids_and_totals (ops : List (Int × String × CartOp)) :
    CartTotalsInv (runOps emptyStore ops) := by
  suffices h : ∀ st, CartTotalsInv st → CartTotalsInv (runOps st ops) by
    refine h emptyStore ?_
    intro c hc
    cases hc
  induction ops with
  | nil => exact fun st h => h
  | cons x rest ih =>
    intro st h
    obtain ⟨now, rnd, op⟩ := x
    refine ih (applyOp now rnd st op) ?_
    cases op with
    | add p q n => exact inv_add h
    | update pid q => exact inv_update h
    | remove pid => exact inv_remove h

/-- Witness for C4: the invariant evaluated after a concrete three-operation
run (add 3 of A, set A to 2, remove A). -/
theorem cart_unique_ids_and_totals_witness :
    ((runOps emptyStore opsW).cart.map
      (fun c => decide ((c.items.map CartItem.id).Nodup) &&
        decide (c.totalItems = sumQuantities c.items))).getD true = true := by
  have h := cart_unique_ids_and_totals opsW
  cases hc : (runOps emptyStore opsW).cart with
  | none => rfl
  | some c =>
    obtain ⟨h1, h2⟩ := h c hc
    simp [h1, h2]

/-- C10 counterexample: the oracle admits a requested quantity of 0 (it only
rejects requests above the balance), and `addToCart` with quantity 0 then
succeeds and creates a persistent line with quantity 0 — not ≥ 1, and not
destroyed. -/
theorem cart_quantity_positive_false :
    (isProductAvailable (some prodA) 0).available = true ∧
    (addToCart 0 "r" emptyStore prodA 0 none).1.success = true ∧
    ((addToCart 0 "r" emptyStore prodA 0 none).2.cart.map
      (fun c => c.items.map fun it => (it.id, it.quantity))) = some [("A", 0)] := by
  decide

theorem qpos_load {now : Int} {st : Store} (h : QPosInv st) :
    QPosInv (loadCartState now st).2 := by
  intro c hc
  rcases load_snd_cart now st with h1 | h1
  · exact h c (by rw [← h1]; exact hc)
  · rw [h1.2] at hc
    cases hc

theorem qpos_save {now : Int} {rnd : String} {st : Store} {cs : CartState}
    (h : ∀ it ∈ cs.items, 1 ≤ it.quantity) :
    QPosInv (saveCartState now rnd st cs).2 := by
  intro c hc it hmem
  rw [save_cart] at hc
  injection hc with hc
  subst hc
  exact h it hmem

theorem qpos_update_members {pid : String} {l : List CartItem}
    (f : CartItem → CartItem) (hl : ∀ it ∈ l, 1 ≤ it.quantity)
    (hf : ∀ it ∈ l, 1 ≤ (f it).quantity) :
    ∀ it ∈ updateFirstMatching pid f l, 1 ≤ it.quantity := by
  intro it hmem
  rcases updateFirstMatching_mem hmem with h1 | ⟨it0, hit0, _, heq⟩
  · exact hl it h1
  · rw [heq]
    exact hf it0 hit0

theorem qpos_add {now : Int} {rnd : String} {st : Store} {p : Product} {q : Int}
    {n : Option String} (h : QPosInv st) (hq : 1 ≤ q) :
    QPosInv (addToCart now rnd st p q n).2 := by
  by_cases havail : (isProductAvailable (some p) q).available = true
  case neg =>
    have hof : (isProductAvailable (some p) q).available = false := by
      cases h0 : (isProductAvailable (some p) q).available
      · rfl
      · exact absurd h0 havail
    rw [add_eq_reject now rnd st p q n hof]
    exact h
  case pos =>
    have he := add_eq_body now rnd st p q n havail
    cases hload : (loadCartState now st).1 with
    | none =>
      rw [hload] at he
      simp only [Option.getD_none] at he
      rw [body_new now rnd (loadCartState now st).2 (defaultCartState now rnd) p q n
        (findCartItem_nil p.id)] at he
      rw [he, addSave_snd]
      refine qpos_save ?_
      intro it hmem
      have hm2 : it ∈ ([] : List CartItem) ++
          [{ id := p.id, product := p, quantity := q, addedAt := now, notes := n }] := hmem
      simp at hm2
      rw [hm2]
      exact hq
    | some c =>
      rw [hload] at he
      simp only [Option.getD_some] at he
      have hpos : ∀ it ∈ c.items, 1 ≤ it.quantity := h c (load_fst_some hload).1
      cases hfind : findCartItem p.id c.items with
      | none =>
        rw [body_new now rnd (loadCartState now st).2 c p q n hfind] at he
        rw [he, addSave_snd]
        refine qpos_save ?_
        intro it hmem
        have hm2 : it ∈ c.items ++
            [{ id := p.id, product := p, quantity := q, addedAt := now, notes := n }] := hmem
        rcases List.mem_append.mp hm2 with h1 | h1
        · exact hpos it h1
        · simp at h1
          rw [h1]
          exact hq
      | some line =>
        have hlq : 1 ≤ line.quantity := hpos line (findCartItem_some hfind).1
        cases hb : p.balance with
        | none =>
          rw [body_exist_nobal now rnd (loadCartState now st).2 c p q n hfind hb] at he
          rw [he, addSave_snd]
          refine qpos_save (qpos_update_members _ hpos ?_)
          intro it _
          show 1 ≤ line.quantity + q
          omega
        | some b =>
          by_cases hover : line.quantity + q > b
          · by_cases hcan : b - line.quantity ≤ 0
            · rw [he, body_clamp_fail now rnd (loadCartState now st).2 c p q n hfind hb
                hover hcan]
              exact qpos_load h
            · rw [he, body_clamp_ok now rnd (loadCartState now st).2 c p q n hfind hb
                hover (by omega)]
              show QPosInv (saveCartState now rnd (loadCartState now st).2 _).2
              refine qpos_save (qpos_update_members _ hpos ?_)
              intro it hit
              show 1 ≤ it.quantity + (b - line.quantity)
              have := hpos it hit
              omega
          · rw [he, body_exist_fits now rnd (loadCartState now st).2 c p q n hfind hb
              hover, addSave_snd]
            refine qpos_save (qpos_update_members _ hpos ?_)
            intro it _
            show 1 ≤ line.quantity + q
            omega

theorem qpos_remove {now : Int} {rnd : String} {st : Store} {pid : String}
    (h : QPosInv st) : QPosInv (removeFromCart now rnd st pid).2 := by
  cases hload : (loadCartState now st).1 with
  | none =>
    rw [removeFromCart_eq_nonload now rnd st pid hload]
    exact qpos_load h
  | some c =>
    rw [removeFromCart_eq_save now rnd st pid hload]
    refine qpos_save ?_
    intro it hmem
    exact h c (load_fst_some hload).1 it (List.mem_of_mem_filter hmem)

theorem qpos_update {now : Int} {rnd : String} {st : Store} {pid : String} {q : Int}
    (h : QPosInv st) : QPosInv (updateCartItemQuantity now rnd st pid q).2 := by
  cases hload : (loadCartState now st).1 with
  | none =>
    rw [update_eq_nonload now rnd st pid q hload]
    exact qpos_load h
  | some c =>
    cases hfind : findCartItem pid c.items with
    | none =>
      rw [update_eq_nofind now rnd st pid q hload hfind]
      exact qpos_load h
    | some it =>
      by_cases hqle : q ≤ 0
      · rw [update_eq_remove now rnd st pid q hload hfind hqle,
          removeFromCart_after_load hload pid]
        exact qpos_remove h
      · rw [update_eq_save now rnd st pid q hload hfind hqle]
        refine qpos_save (qpos_update_members _ (h c (load_fst_some hload).1) ?_)
        intro i _
        show 1 ≤ q
        omega

/-- C10 amended: starting from the absent cart, any sequence of public
mutations in which every addItem requests a quantity ≥ 1 leaves only lines
with quantity ≥ 1 (updateQuantity with a value ≤ 0 removes the line, and a
positive integer overwrite keeps the bound; addItem with quantity 0 — which
the oracle admits — is the sole way to create a 0-quantity line). -/
theorem cart_quantity_positive (ops : List (Int × String × CartOp))
    (hops : ∀ x ∈ ops, opAddPos x.2.2) :
    QPosInv (runOps emptyStore ops) := by
  suffices h : ∀ (l : List (Int × String × CartOp)), (∀ x ∈ l, opAddPos x.2.2) →
      ∀ st, QPosInv st → QPosInv (runOps st l) by
    refine h ops hops emptyStore ?_
    intro c hc
    cases hc
  intro l
  induction l with
  | nil => exact fun _ st h => h
  | cons x rest ih =>
    intro hl st h
    have hx := hl x (List.mem_cons_self x rest)
    have hrest := fun y hy => hl y (List.mem_cons_of_mem x hy)
    obtain ⟨now, rnd, op⟩ := x
    refine ih hrest (applyOp now rnd st op) ?_
    cases op with
    | add p q n => exact qpos_add h hx
    | update pid q => exact qpos_update h
    | remove pid => exact qpos_remove h

/-- Witness for C10: the positivity bound evaluated after the concrete
three-operation run whose additions all request quantity ≥ 1. -/
theorem cart_quantity_positive_witness :
    ((runOps emptyStore opsW).cart.map
      (fun c => decide (∀ it ∈ c.items, 1 ≤ it.quantity))).getD true = true := by
  have h := cart_quantity_positive opsW (by
    intro x hx
    fin_cases hx <;> norm_num [opAddPos])
  cases hc : (runOps emptyStore opsW).cart with
  | none => rfl
  | some c =>
    simp only [Option.map_some', Option.getD_some, decide_eq_true_eq]
    exact h c hc
